import Mathlib

/-!
# The R entry point of TADbit: `tadbit_R_call` (src/tadbit_R.c)

A shallow embedding of the validation loop and of the dispatch to the engine
`tadbit`, followed by the properties of the interface specification.

Modelling conventions.

* An element of the R list is an `SEXP` record holding exactly what the C code
  asks of it through the R API: the outcome of `coerceVector(x, REALSXP)`,
  the answer of `isVector`, and the `dim` attribute.  The R API itself is an
  external library and is not re-implemented.
* `error(...)` is a non-local exit; it is the `Except.error` branch.  The error
  sites are kept apart by constructor, the message text by `errorMessage`.
* `int` is a 32-bit two's complement integer; the product `n*n` wraps
  (`wrapInt32`).
* `int n` is declared without an initialiser; the value it holds before the
  first assignment is the argument `nInit` of the model.
* The effectful calls (`malloc`, `allocVector`, `tadbit`) are recorded, in
  program order, in an event list.
* `length(list)` is the length of the Lean list (R lists hold fewer than
  `2^31` elements).
* Where a property speaks of the type of an element, the element is an
  `RObject` (a double vector, a generic list, or a function) and `toSEXP` gives
  what the R API answers on it.
-/

namespace Tadbit

/-- A C `double` as R sees it: a finite dyadic value `mant * 2^expo`, the
missing-value marker `NA_real_`, a NaN, or an infinity. -/
inductive RDouble where
  | num (mant : Int) (expo : Int)
  | na
  | nan
  | posInf
  | negInf
  deriving DecidableEq, Repr

deriving instance DecidableEq for Except

/-- One element of the input list, `VECTOR_ELT(list, i)`, seen through the R
API calls the wrapper makes on it.

* `real`: the data of `coerceVector(x, REALSXP)`, or `none` when that call
  raises an R error ("This fails is list element is not numeric").
* `isVector`: the answer of R's `isVector(x)`.
* `dim`: the integer `dim` attribute, `getAttrib(x, R_DimSymbol)`, when set. -/
structure SEXP where
  real : Option (List RDouble)
  isVector : Bool
  dim : Option (List Int)
  deriving DecidableEq, Repr

/-- The ways the call is aborted through R's error channel. -/
inductive RError where
  /-- raised inside `coerceVector` (line 51) -/
  | coerce
  /-- the call `error("input must be square matrix")` after `!isMatrix` (line 54) -/
  | notMatrix
  /-- the call `error("input must be square matrix")` after `dim[0] != dim[1]` (line 59) -/
  | notSquare
  /-- the call `error("all matrices must have same dimensions")` (line 67) -/
  | dimMismatch
  /-- raised inside `allocVector` on a negative length (line 73) -/
  | negativeLength
  deriving DecidableEq, Repr

/-- The message text the wrapper itself passes to `error`; `none` for the
errors raised inside the R API. -/
def errorMessage : RError → Option String
  | .coerce => none
  | .notMatrix => some "input must be square matrix"
  | .notSquare => some "input must be square matrix"
  | .dimMismatch => some "all matrices must have same dimensions"
  | .negativeLength => none

/-- R's `isMatrix`: a vector whose `dim` attribute is an integer vector of
length 2. -/
def isMatrix (x : SEXP) : Bool :=
  x.isVector && (match x.dim with
    | some d => d.length == 2
    | none => false)

/-- The array `dim = INTEGER(getAttrib(x, R_DimSymbol))`, read at index `k`. -/
def dimAt (x : SEXP) (k : Nat) : Int :=
  (x.dim.getD []).getD k 0

/-- The local variables of `tadbit_R_call` that the loop updates: the flag
`first`, the side `n`, and the filled part `obs[0..i)` of the pointer table. -/
structure LoopState where
  first : Bool
  n : Int
  obs : List (List RDouble)
  deriving DecidableEq, Repr

/-- One iteration of the `for` loop (lines 49-70) on the element `x`. -/
def loopBody (st : LoopState) (x : SEXP) : Except RError LoopState :=
  match x.real with
  | none => .error .coerce
  | some buf =>
    let obs := st.obs ++ [buf]
    if !isMatrix x then .error .notMatrix
    else if dimAt x 0 ≠ dimAt x 1 then .error .notSquare
    else if st.first then .ok ⟨false, dimAt x 0, obs⟩
    else if st.n ≠ dimAt x 0 then .error .dimMismatch
    else .ok ⟨st.first, st.n, obs⟩

/-- The `for` loop over the list elements, in index order; the first error
leaves the loop. -/
def loop : LoopState → List SEXP → Except RError LoopState
  | st, [] => .ok st
  | st, x :: xs =>
    match loopBody st x with
    | .error e => .error e
    | .ok st2 => loop st2 xs

/-- The state on entry to the loop: `first = 1`, `n` not initialised, no
pointer stored yet. -/
def initState (nInit : Int) : LoopState := ⟨true, nInit, []⟩

/-- The validation loop of `tadbit_R_call` run on the whole list. -/
def validate (nInit : Int) (list : List SEXP) : Except RError LoopState :=
  loop (initState nInit) list

/-- 32-bit two's complement wrap-around of an `int` result. -/
def wrapInt32 (x : Int) : Int :=
  (x + 2147483648) % 4294967296 - 2147483648

/-- Size in bytes of a `double **` (LP64). -/
def sizeofPtr : Nat := 8

/-- The arguments of one call of the engine `tadbit`; `return_val` is the
number of `int` cells of the buffer the last pointer refers to. -/
structure EngineCall where
  obs : List (List RDouble)
  n : Int
  m : Nat
  max_tad_size : RDouble
  n_threads : Int
  verbose : Int
  return_val : Nat
  deriving DecidableEq, Repr

/-- The effectful calls of the wrapper. -/
inductive Event where
  | malloc (bytes : Nat)
  | allocVector (len : Int)
  | tadbit (call : EngineCall)
  deriving DecidableEq, Repr

/-- What one call of `tadbit_R_call` does: the calls it made, in order, and
either the R error that aborted it or the length of the integer vector it
returned. -/
structure Run where
  events : List Event
  result : Except RError Nat
  deriving DecidableEq

/-- The function `tadbit_R_call` (lines 26-83). -/
def tadbit_R_call (nInit : Int) (list : List SEXP) (max_tad_size : RDouble)
    (n_threads verbose : Int) : Run :=
  let m := list.length
  let ev := [Event.malloc (m * sizeofPtr)]
  match validate nInit list with
  | .error e => ⟨ev, .error e⟩
  | .ok st =>
    let len := wrapInt32 (st.n * st.n)
    if len < 0 then ⟨ev ++ [Event.allocVector len], .error .negativeLength⟩
    else
      ⟨ev ++ [Event.allocVector len,
          Event.tadbit ⟨st.obs, st.n, m, max_tad_size, n_threads, verbose, len.toNat⟩],
        .ok len.toNat⟩

/-- The engine calls recorded in an event list. -/
def engineCalls : List Event → List EngineCall
  | [] => []
  | Event.tadbit c :: es => c :: engineCalls es
  | _ :: es => engineCalls es

/-- The lengths of the result vectors requested from `allocVector`. -/
def resultAllocs : List Event → List Int
  | [] => []
  | Event.allocVector len :: es => len :: resultAllocs es
  | _ :: es => resultAllocs es

/-- A square `n` by `n` double matrix with every entry `v`. -/
def constMatrix (n : Nat) (v : RDouble) : SEXP :=
  ⟨some (List.replicate (n * n) v), true, some [(n : Int), (n : Int)]⟩

/-! ## Predicates of the specification -/

/-- The element is numeric-coercible and is a 2-D matrix with `n` rows and `n`
columns. -/
def squareOfSide (n : Int) (x : SEXP) : Bool :=
  x.real.isSome && x.isVector && (x.dim == some [n, n])

/-- The coerced flat buffer of the element holds `k` numbers (R keeps the
length of a matrix equal to the product of its dimensions). -/
def bufferLength (k : Int) (x : SEXP) : Bool :=
  match x.real with
  | some buf => (buf.length : Int) == k
  | none => false

/-- The element is numeric-coercible and is a 2-D matrix whose row count
differs from its column count. -/
def nonSquareMatrix (x : SEXP) : Bool :=
  x.real.isSome && isMatrix x && (dimAt x 0 != dimAt x 1)

/-- The checks of the specification on one element, in its order (4.1, steps 1
to 4): numeric coercion, 2-D matrix shape, squareness, and agreement with the
side `fixed` by the first element when there is one.  The value is the error
of the first check that the element fails, `none` when it passes all. -/
def violation (fixed : Option Int) (x : SEXP) : Option RError :=
  if x.real.isNone then some .coerce
  else if !isMatrix x then some .notMatrix
  else if dimAt x 0 ≠ dimAt x 1 then some .notSquare
  else match fixed with
    | some n => if dimAt x 0 ≠ n then some .dimMismatch else none
    | none => none

/-- The side against which the element of index `j` of a batch is compared:
none for element 0, the row count of element 0 for the later ones. -/
def sideFixed (items : List SEXP) (j : Nat) : Option Int :=
  if j = 0 then none else items.head?.map (fun x => dimAt x 0)

/-- What a validation outcome shows apart from the entry values: the error,
or the flag, the side and the number of stored buffers. -/
def outcomeShape : Except RError LoopState → Except RError (Bool × Int × Nat)
  | .error e => .error e
  | .ok st => .ok (st.first, st.n, st.obs.length)

/-- The side fixed so far, as the loop state records it. -/
def stateFixed (st : LoopState) : Option Int :=
  if st.first then none else some st.n

/-- The coerced flat buffer of a coercible element. -/
def bufferOf (x : SEXP) : List RDouble := x.real.getD []

/-! ## The loop on well-formed elements -/

theorem loopBody_squareOfSide (st : LoopState) (n : Int) (x : SEXP)
    (h : squareOfSide n x = true) :
    loopBody st x =
      if st.first then .ok ⟨false, n, st.obs ++ [bufferOf x]⟩
      else if st.n ≠ n then .error .dimMismatch
      else .ok ⟨false, st.n, st.obs ++ [bufferOf x]⟩ := by
  obtain ⟨real, isV, dim⟩ := x
  simp only [squareOfSide, Bool.and_eq_true, beq_iff_eq] at h
  obtain ⟨⟨h1, h2⟩, h3⟩ := h
  cases real with
  | none => simp at h1
  | some buf =>
    subst h2 h3
    cases hf : st.first <;>
      simp [loopBody, isMatrix, dimAt, bufferOf, hf]

theorem loop_append (st : LoopState) (xs ys : List SEXP) :
    loop st (xs ++ ys) =
      match loop st xs with
      | .error e => .error e
      | .ok st2 => loop st2 ys := by
  induction xs generalizing st with
  | nil => simp [loop]
  | cons x xs ih =>
    simp only [List.cons_append, loop]
    cases loopBody st x with
    | error e => simp
    | ok st2 => simpa using ih st2

theorem loop_squares_later (n : Int) (obs : List (List RDouble)) (xs : List SEXP)
    (h : ∀ x ∈ xs, squareOfSide n x = true) :
    loop ⟨false, n, obs⟩ xs = .ok ⟨false, n, obs ++ xs.map bufferOf⟩ := by
  induction xs generalizing obs with
  | nil => simp [loop]
  | cons x xs ih =>
    have hx := h x (List.mem_cons_self _ _)
    have hxs : ∀ y ∈ xs, squareOfSide n y = true :=
      fun y hy => h y (List.mem_cons_of_mem _ hy)
    simp [loop, loopBody_squareOfSide _ n x hx, ih _ hxs]

theorem validate_squares (nInit n : Int) (x : SEXP) (xs : List SEXP)
    (h : ∀ y ∈ x :: xs, squareOfSide n y = true) :
    validate nInit (x :: xs) = .ok ⟨false, n, (x :: xs).map bufferOf⟩ := by
  have hx := h x (List.mem_cons_self _ _)
  have hxs : ∀ y ∈ xs, squareOfSide n y = true :=
    fun y hy => h y (List.mem_cons_of_mem _ hy)
  simp [validate, loop, initState, loopBody_squareOfSide _ n x hx,
    loop_squares_later n _ xs hxs]

theorem bufferOf_length (k : Int) (x : SEXP) (h : bufferLength k x = true) :
    ((bufferOf x).length : Int) = k := by
  unfold bufferLength at h
  cases hr : x.real with
  | none => simp [hr] at h
  | some buf => simpa [hr, bufferOf] using h

theorem loopBody_nonSquare (st : LoopState) (x : SEXP) (h : nonSquareMatrix x = true) :
    loopBody st x = .error .notSquare := by
  simp only [nonSquareMatrix, Bool.and_eq_true, bne_iff_ne] at h
  obtain ⟨⟨h1, h2⟩, h3⟩ := h
  cases hr : x.real with
  | none => simp [hr] at h1
  | some buf => simp [loopBody, hr, h2, h3]

theorem validate_squares_ok (nInit n : Int) (xs : List SEXP)
    (h : ∀ y ∈ xs, squareOfSide n y = true) :
    ∃ st, validate nInit xs = .ok st := by
  cases xs with
  | nil => exact ⟨initState nInit, rfl⟩
  | cons x xs => exact ⟨_, validate_squares nInit n x xs h⟩

theorem loop_mismatch_after_equal_sides (n0 n1 : Int) (obs : List (List RDouble))
    (pre post : List SEXP) (y : SEXP)
    (hpre : ∀ z ∈ pre, squareOfSide n0 z = true)
    (hsq : squareOfSide n1 y = true) (hne : n1 ≠ n0) :
    loop ⟨false, n0, obs⟩ (pre ++ y :: post) = .error .dimMismatch := by
  have hn : ¬ n0 = n1 := fun h => hne h.symm
  rw [loop_append, loop_squares_later n0 obs pre hpre]
  simp [loop, loopBody_squareOfSide _ n1 y hsq, hn]

theorem loopBody_eq_violation (st : LoopState) (x : SEXP) :
    loopBody st x =
      match violation (stateFixed st) x with
      | some e => .error e
      | none => .ok ⟨false, if st.first then dimAt x 0 else st.n, st.obs ++ [bufferOf x]⟩ := by
  obtain ⟨first, n, obs⟩ := st
  cases hr : x.real with
  | none => simp [loopBody, violation, hr]
  | some buf =>
    cases hm : isMatrix x
    · simp [loopBody, violation, hr, hm]
    · by_cases hd : dimAt x 0 = dimAt x 1
      · cases first
        · by_cases hn : n = dimAt x 0
          · simp [loopBody, violation, stateFixed, hr, hm, hd, hn, bufferOf]
          · have hn2 : ¬ dimAt x 1 = n := fun h => hn (hd.trans h).symm
            have hn3 : ¬ n = dimAt x 1 := fun h => hn2 h.symm
            simp [loopBody, violation, stateFixed, hr, hm, hd, hn2, hn3, bufferOf]
        · simp [loopBody, violation, stateFixed, hr, hm, hd, bufferOf]
      · simp [loopBody, violation, hr, hm, hd]

theorem loop_later_violation (n : Int) (obs : List (List RDouble)) (xs : List SEXP)
    (i : Nat) (x : SEXP) (e : RError)
    (hi : xs[i]? = some x)
    (hlow : ∀ j y, j < i → xs[j]? = some y → violation (some n) y = none)
    (hv : violation (some n) x = some e) :
    loop ⟨false, n, obs⟩ xs = .error e := by
  induction xs generalizing i obs with
  | nil => simp at hi
  | cons y ys ih =>
    cases i with
    | zero =>
      simp only [List.getElem?_cons_zero, Option.some.injEq] at hi
      subst hi
      simp [loop, loopBody_eq_violation, stateFixed, hv]
    | succ k =>
      have hy : violation (some n) y = none := hlow 0 y (Nat.succ_pos k) (by simp)
      have hlow2 : ∀ j z, j < k → ys[j]? = some z → violation (some n) z = none :=
        fun j z hj hz => hlow (j + 1) z (Nat.succ_lt_succ hj) (by simpa using hz)
      have hi2 : ys[k]? = some x := by simpa using hi
      simp [loop, loopBody_eq_violation, stateFixed, hy, ih _ k hi2 hlow2]

theorem validate_first_violation (nInit : Int) (items : List SEXP) (i : Nat) (x : SEXP)
    (e : RError)
    (hi : items[i]? = some x)
    (hlow : ∀ j y, j < i → items[j]? = some y → violation (sideFixed items j) y = none)
    (hv : violation (sideFixed items i) x = some e) :
    validate nInit items = .error e := by
  cases items with
  | nil => simp at hi
  | cons y ys =>
    cases i with
    | zero =>
      simp only [List.getElem?_cons_zero, Option.some.injEq] at hi
      subst hi
      simp only [sideFixed, if_true] at hv
      simp [validate, loop, initState, loopBody_eq_violation, stateFixed, hv]
    | succ k =>
      have hy : violation none y = none := by
        simpa [sideFixed] using hlow 0 y (Nat.succ_pos k) (by simp)
      have hlow2 : ∀ j z, j < k → ys[j]? = some z →
          violation (some (dimAt y 0)) z = none := by
        intro j z hj hz
        simpa [sideFixed] using hlow (j + 1) z (Nat.succ_lt_succ hj) (by simpa using hz)
      have hi2 : ys[k]? = some x := by simpa using hi
      have hv2 : violation (some (dimAt y 0)) x = some e := by
        simpa [sideFixed] using hv
      simp [validate, loop, initState, loopBody_eq_violation, stateFixed, hy,
        loop_later_violation (dimAt y 0) _ ys k x e hi2 hlow2 hv2]

theorem getElem?_of_take_eq (xs ys : List SEXP) (i j : Nat) (hj : j ≤ i)
    (h : ys.take (i + 1) = xs.take (i + 1)) : ys[j]? = xs[j]? := by
  have h1 : (ys.take (i + 1))[j]? = (xs.take (i + 1))[j]? := by rw [h]
  rwa [List.getElem?_take_of_lt (Nat.lt_succ_of_le hj),
    List.getElem?_take_of_lt (Nat.lt_succ_of_le hj)] at h1

theorem loopBody_noncoercible (st : LoopState) (x : SEXP) (h : x.real = none) :
    loopBody st x = .error .coerce := by
  simp [loopBody, h]

theorem loop_fails_of_mem (P : LoopState → Prop) (x : SEXP)
    (hP : ∀ st y st2, P st → loopBody st y = .ok st2 → P st2)
    (hx : ∀ st, P st → ∃ e, loopBody st x = .error e)
    (items : List SEXP) (st : LoopState) (hmem : x ∈ items) (hst : P st) :
    ∃ e, loop st items = .error e := by
  induction items generalizing st with
  | nil => simp at hmem
  | cons y ys ih =>
    simp only [loop]
    cases hb : loopBody st y with
    | error e => exact ⟨e, rfl⟩
    | ok st2 =>
      rcases List.mem_cons.mp hmem with rfl | hmem2
      · obtain ⟨e, he⟩ := hx st hst
        rw [hb] at he
        cases he
      · exact ih st2 hmem2 (hP st y st2 hst hb)

theorem loopBody_keeps_side (n0 : Int) (st st2 : LoopState) (y : SEXP)
    (hst : st.first = false ∧ st.n = n0) (hb : loopBody st y = .ok st2) :
    st2.first = false ∧ st2.n = n0 := by
  rw [loopBody_eq_violation] at hb
  cases hv : violation (stateFixed st) y with
  | some e => simp [hv] at hb
  | none =>
    simp only [hv, Except.ok.injEq] at hb
    subst hb
    simp [hst.1, hst.2]

theorem call_of_validate_error (nInit : Int) (items : List SEXP) (e : RError)
    (max_tad_size : RDouble) (n_threads verbose : Int)
    (h : validate nInit items = .error e) :
    tadbit_R_call nInit items max_tad_size n_threads verbose =
      ⟨[Event.malloc (items.length * sizeofPtr)], .error e⟩ := by
  simp [tadbit_R_call, h]

/-! ## What a successful validation guarantees, and the dispatch that follows -/

theorem squareOfSide_of_violation_none (n : Int) (x : SEXP)
    (h : violation (some n) x = none) : squareOfSide n x = true := by
  obtain ⟨real, isV, dim⟩ := x
  cases real with
  | none => simp [violation] at h
  | some buf =>
    cases isV with
    | false => simp [violation, isMatrix] at h
    | true =>
      cases dim with
      | none => simp [violation, isMatrix] at h
      | some d =>
        match d with
        | [] => simp [violation, isMatrix] at h
        | [_] => simp [violation, isMatrix] at h
        | _ :: _ :: _ :: _ => simp [violation, isMatrix] at h
        | [a, b] =>
          simp only [violation, isMatrix, dimAt] at h
          by_cases hab : a = b
          · by_cases han : a = n
            · subst hab han; simp [squareOfSide]
            · simp [hab] at h
              exact absurd (hab.trans h) han
          · simp [hab] at h

theorem sides_equal_of_violation_none (x : SEXP) (h : violation none x = none) :
    violation (some (dimAt x 0)) x = none := by
  unfold violation at h ⊢
  split_ifs at h ⊢
  simp_all

theorem loop_later_ok (n : Int) (obs : List (List RDouble)) (xs : List SEXP)
    (st2 : LoopState) (h : loop ⟨false, n, obs⟩ xs = .ok st2) :
    st2.n = n ∧ ∀ x ∈ xs, violation (some n) x = none := by
  induction xs generalizing obs with
  | nil =>
    simp only [loop, Except.ok.injEq] at h
    subst h
    simp
  | cons x xs ih =>
    cases hv : violation (some n) x with
    | some e => simp [loop, loopBody_eq_violation, stateFixed, hv] at h
    | none =>
      simp only [loop, loopBody_eq_violation, stateFixed, Bool.false_eq_true, if_false,
        hv] at h
      obtain ⟨h1, h2⟩ := ih _ h
      refine ⟨h1, ?_⟩
      intro y hy
      rcases List.mem_cons.mp hy with rfl | hy2
      · exact hv
      · exact h2 y hy2

theorem validate_ok_all_square (nInit : Int) (items : List SEXP) (st : LoopState)
    (h : validate nInit items = .ok st) (hne : items ≠ []) :
    ∀ x ∈ items, squareOfSide st.n x = true := by
  cases items with
  | nil => exact absurd rfl hne
  | cons x xs =>
    cases hv : violation none x with
    | some e => simp [validate, loop, initState, loopBody_eq_violation, stateFixed, hv] at h
    | none =>
      simp only [validate, loop, initState, loopBody_eq_violation, stateFixed, if_true,
        hv] at h
      obtain ⟨h1, h2⟩ := loop_later_ok _ _ xs st h
      intro y hy
      rcases List.mem_cons.mp hy with rfl | hy2
      · rw [h1]
        exact squareOfSide_of_violation_none _ _ (sides_equal_of_violation_none _ hv)
      · rw [h1]
        exact squareOfSide_of_violation_none _ _ (h2 y hy2)

theorem tadbit_R_call_two_by_two :
    tadbit_R_call 0 [⟨some [.num 1 0, .num 2 0, .num 3 0, .num 4 0], true, some [2, 2]⟩]
        (.num 5 0) 2 0 =
      ⟨[Event.malloc 8, Event.allocVector 4,
          Event.tadbit ⟨[[.num 1 0, .num 2 0, .num 3 0, .num 4 0]], 2, 1, .num 5 0, 2, 0, 4⟩],
        .ok 4⟩ := by
  decide

/-! ## Properties -/

/-- C1: on a batch of `m` elements, each a numeric-coercible `n` by `n` matrix
(with the same `n`), the validation loop raises no error and leaves `m` stored
buffers, each of length `n*n`; the side it fixed is `n` (for a batch with at
least one element, which is when the elements determine a side). -/
theorem validate_wellformed_batch (nInit n : Int) (items : List SEXP)
    (h : ∀ x ∈ items, squareOfSide n x = true ∧ bufferLength (n * n) x = true) :
    ∃ st, validate nInit items = .ok st ∧ st.obs.length = items.length ∧
      (∀ buf ∈ st.obs, (buf.length : Int) = n * n) ∧ (items ≠ [] → st.n = n) := by
  cases items with
  | nil => exact ⟨initState nInit, rfl, rfl, by simp [initState], by simp⟩
  | cons x xs =>
    refine ⟨_, validate_squares nInit n x xs (fun y hy => (h y hy).1), by simp, ?_, by simp⟩
    intro buf hbuf
    simp only [List.mem_map] at hbuf
    obtain ⟨y, hy, rfl⟩ := hbuf
    exact bufferOf_length _ y (h y hy).2

/-- Witness of C1: two 3 by 3 matrices, one full of missing values. -/
theorem validate_wellformed_batch_witness :
    ∃ st, validate 7 [constMatrix 3 .na, constMatrix 3 (.num 1 0)] = .ok st ∧
      st.obs.length = [constMatrix 3 .na, constMatrix 3 (.num 1 0)].length ∧
      (∀ buf ∈ st.obs, (buf.length : Int) = 3 * 3) ∧
      ([constMatrix 3 .na, constMatrix 3 (.num 1 0)] ≠ [] → st.n = 3) :=
  validate_wellformed_batch 7 3 [constMatrix 3 .na, constMatrix 3 (.num 1 0)] (by decide)

/-- C2 (amended): a batch that contains a non-square matrix (a coercible
matrix whose row count differs from its column count) is always rejected, and
the engine is never called.  The rejection is the one of the squareness check
on that matrix, with the message "input must be square matrix", when every
element before it is a well-formed square matrix of one side (so that it is
the first violating element), whatever follows it; otherwise the error is the
one of an earlier element. -/
theorem nonsquare_item_rejected (nInit : Int) (items : List SEXP) (x : SEXP)
    (max_tad_size : RDouble) (n_threads verbose : Int)
    (hmem : x ∈ items) (hx : nonSquareMatrix x = true) :
    (∃ e, tadbit_R_call nInit items max_tad_size n_threads verbose =
      ⟨[Event.malloc (items.length * sizeofPtr)], .error e⟩) ∧
    engineCalls (tadbit_R_call nInit items max_tad_size n_threads verbose).events = [] ∧
    (∀ n pre post, items = pre ++ x :: post → (∀ y ∈ pre, squareOfSide n y = true) →
      validate nInit items = .error .notSquare ∧
      tadbit_R_call nInit items max_tad_size n_threads verbose =
        ⟨[Event.malloc (items.length * sizeofPtr)], .error .notSquare⟩) ∧
    errorMessage .notSquare = some "input must be square matrix" := by
  have hfail : ∃ e, validate nInit items = .error e :=
    loop_fails_of_mem (fun _ => True) x (fun _ _ _ _ _ => trivial)
      (fun st _ => ⟨.notSquare, loopBody_nonSquare st x hx⟩) items _ hmem trivial
  obtain ⟨e, he⟩ := hfail
  have hrun := call_of_validate_error nInit items e max_tad_size n_threads verbose he
  refine ⟨⟨e, hrun⟩, by simp [hrun, engineCalls], ?_, rfl⟩
  intro n pre post hitems hpre
  subst hitems
  have hv : validate nInit (pre ++ x :: post) = .error .notSquare := by
    obtain ⟨st, hst⟩ := validate_squares_ok nInit n pre hpre
    unfold validate at hst ⊢
    rw [loop_append, hst]
    simp [loop, loopBody_nonSquare _ x hx]
  exact ⟨hv, call_of_validate_error _ _ _ _ _ _ hv⟩

/-- Witness of C2: two 3 by 3 matrices, then a 2 by 3 matrix, then a 5 by 5
matrix; the call is aborted by the squareness check. -/
theorem nonsquare_item_rejected_witness :
    validate 0
        [constMatrix 3 .na, constMatrix 3 .nan,
          ⟨some (List.replicate 6 .na), true, some [2, 3]⟩, constMatrix 5 .na]
      = .error .notSquare ∧
    tadbit_R_call 0
        [constMatrix 3 .na, constMatrix 3 .nan,
          ⟨some (List.replicate 6 .na), true, some [2, 3]⟩, constMatrix 5 .na] .na 1 0 =
      ⟨[Event.malloc
          ([constMatrix 3 .na, constMatrix 3 .nan,
            ⟨some (List.replicate 6 .na), true, some [2, 3]⟩,
            constMatrix 5 .na].length * sizeofPtr)], .error .notSquare⟩ :=
  (nonsquare_item_rejected 0
    [constMatrix 3 .na, constMatrix 3 .nan,
      ⟨some (List.replicate 6 .na), true, some [2, 3]⟩, constMatrix 5 .na]
    ⟨some (List.replicate 6 .na), true, some [2, 3]⟩ .na 1 0 (by decide) (by decide)).2.2.1
    3 [constMatrix 3 .na, constMatrix 3 .nan] [constMatrix 5 .na] rfl (by decide)

/-- C2, counterexample to the claim as worded: the batch of a 3 by 3 matrix, a
4 by 4 matrix and a 2 by 3 matrix contains one non-square matrix, and the call
is aborted by the side comparison at index 1 ("all matrices must have same
dimensions"), not by the squareness check. -/
theorem nonsquare_not_always_notSquare :
    (⟨some (List.replicate 6 .na), true, some [2, 3]⟩ : SEXP) ∈
      [constMatrix 3 .na, constMatrix 4 .na,
        ⟨some (List.replicate 6 .na), true, some [2, 3]⟩] ∧
    nonSquareMatrix ⟨some (List.replicate 6 .na), true, some [2, 3]⟩ = true ∧
    squareOfSide 3 (constMatrix 3 .na) = true ∧
    squareOfSide 4 (constMatrix 4 .na) = true ∧
    (tadbit_R_call 0
      [constMatrix 3 .na, constMatrix 4 .na,
        ⟨some (List.replicate 6 .na), true, some [2, 3]⟩] .na 1 0).result
      = .error .dimMismatch ∧
    (tadbit_R_call 0
      [constMatrix 3 .na, constMatrix 4 .na,
        ⟨some (List.replicate 6 .na), true, some [2, 3]⟩] .na 1 0).result
      ≠ .error .notSquare ∧
    errorMessage .dimMismatch ≠ errorMessage .notSquare := by
  refine ⟨?_, ?_, ?_, ?_, ?_, ?_, ?_⟩ <;> decide

/-- C3 (amended): a batch whose element 0 is a square matrix of side `n0` and
in which some later element is a square matrix of a side `n1` different from
`n0` is always rejected; no result vector is requested and the engine is not
called.  The rejection is the one of the side comparison on that later
element, with the message "all matrices must have same dimensions", when every
element before it is a square matrix of side `n0` (so that it is the first
violating element), whatever follows it; otherwise the error is the one of an
earlier element. -/
theorem side_mismatch_rejected (nInit n0 n1 : Int) (a y : SEXP) (rest : List SEXP)
    (max_tad_size : RDouble) (n_threads verbose : Int)
    (ha : squareOfSide n0 a = true) (hy : y ∈ rest)
    (hsq : squareOfSide n1 y = true) (hne : n1 ≠ n0) :
    (∃ e, tadbit_R_call nInit (a :: rest) max_tad_size n_threads verbose =
      ⟨[Event.malloc ((a :: rest).length * sizeofPtr)], .error e⟩) ∧
    resultAllocs (tadbit_R_call nInit (a :: rest) max_tad_size n_threads
      verbose).events = [] ∧
    engineCalls (tadbit_R_call nInit (a :: rest) max_tad_size n_threads
      verbose).events = [] ∧
    (∀ pre post, rest = pre ++ y :: post → (∀ z ∈ pre, squareOfSide n0 z = true) →
      validate nInit (a :: rest) = .error .dimMismatch ∧
      tadbit_R_call nInit (a :: rest) max_tad_size n_threads verbose =
        ⟨[Event.malloc ((a :: rest).length * sizeofPtr)], .error .dimMismatch⟩) ∧
    errorMessage .dimMismatch = some "all matrices must have same dimensions" := by
  have hfail : ∃ e, validate nInit (a :: rest) = .error e := by
    have h := loop_fails_of_mem (fun st => st.first = false ∧ st.n = n0) y
      (fun st z st2 hst hb => loopBody_keeps_side n0 st st2 z hst hb)
      (fun st hst => ⟨.dimMismatch, by
        have hn : ¬ n0 = n1 := fun h => hne h.symm
        simp [loopBody_squareOfSide st n1 y hsq, hst.1, hst.2, hn]⟩)
      rest ⟨false, n0, [bufferOf a]⟩ hy ⟨rfl, rfl⟩
    simpa [validate, loop, initState, loopBody_squareOfSide _ n0 a ha] using h
  obtain ⟨e, he⟩ := hfail
  have hrun := call_of_validate_error nInit (a :: rest) e max_tad_size n_threads verbose he
  refine ⟨⟨e, hrun⟩, by simp [hrun, resultAllocs], by simp [hrun, engineCalls], ?_, rfl⟩
  intro pre post hrest hpre
  subst hrest
  have hv : validate nInit (a :: (pre ++ y :: post)) = .error .dimMismatch := by
    simp [validate, loop, initState, loopBody_squareOfSide _ n0 a ha,
      loop_mismatch_after_equal_sides n0 n1 _ pre post y hpre hsq hne]
  exact ⟨hv, call_of_validate_error _ _ _ _ _ _ hv⟩

/-- Witness of C3: the batch `[A, B]` with `A` 3 by 3 and `B` 4 by 4 is
rejected by the side comparison, and no result vector is requested. -/
theorem side_mismatch_rejected_witness :
    (validate 0 (constMatrix 3 .na :: [constMatrix 4 .na]) = .error .dimMismatch ∧
      tadbit_R_call 0 (constMatrix 3 .na :: [constMatrix 4 .na]) .na 1 0 =
        ⟨[Event.malloc ((constMatrix 3 .na :: [constMatrix 4 .na]).length * sizeofPtr)],
          .error .dimMismatch⟩) ∧
    resultAllocs (tadbit_R_call 0 (constMatrix 3 .na :: [constMatrix 4 .na])
      .na 1 0).events = [] :=
  ⟨(side_mismatch_rejected 0 3 4 (constMatrix 3 .na) (constMatrix 4 .na)
      [constMatrix 4 .na] .na 1 0 (by decide) (by simp) (by decide) (by decide)).2.2.2.1
      [] [] rfl (by simp),
    (side_mismatch_rejected 0 3 4 (constMatrix 3 .na) (constMatrix 4 .na)
      [constMatrix 4 .na] .na 1 0 (by decide) (by simp) (by decide) (by decide)).2.1⟩

/-- C3, counterexample to the claim as worded: in the batch of a 3 by 3 matrix,
a 2 by 3 matrix and a 4 by 4 matrix, element 0 has side 3 and a later element
has side 4, and the call is aborted by the squareness check at index 1
("input must be square matrix"), not by the side comparison. -/
theorem mismatch_not_always_dimMismatch :
    squareOfSide 3 (constMatrix 3 .na) = true ∧
    constMatrix 4 .na ∈
      [(⟨some (List.replicate 6 .na), true, some [2, 3]⟩ : SEXP), constMatrix 4 .na] ∧
    squareOfSide 4 (constMatrix 4 .na) = true ∧
    (tadbit_R_call 0
      [constMatrix 3 .na, ⟨some (List.replicate 6 .na), true, some [2, 3]⟩,
        constMatrix 4 .na] .na 1 0).result = .error .notSquare ∧
    (tadbit_R_call 0
      [constMatrix 3 .na, ⟨some (List.replicate 6 .na), true, some [2, 3]⟩,
        constMatrix 4 .na] .na 1 0).result ≠ .error .dimMismatch ∧
    errorMessage .notSquare ≠ errorMessage .dimMismatch := by
  refine ⟨?_, ?_, ?_, ?_, ?_, ?_⟩ <;> decide

/-- C4: validation is eager and in index order.  When the element of index `i`
is the lowest-index element failing one of the checks (coercion, matrix shape,
squareness, side equal to the side of element 0, tried in that order), the
call is aborted with the error of that check of that element; it requests no
result vector, does not call the engine and returns nothing; and every batch
with the same elements up to index `i` is aborted in the same way, whatever
comes after. -/
theorem first_violation_aborts (nInit : Int) (items : List SEXP) (i : Nat) (x : SEXP)
    (e : RError) (max_tad_size : RDouble) (n_threads verbose : Int)
    (hi : items[i]? = some x)
    (hlow : ∀ j y, j < i → items[j]? = some y → violation (sideFixed items j) y = none)
    (hv : violation (sideFixed items i) x = some e) :
    tadbit_R_call nInit items max_tad_size n_threads verbose =
      ⟨[Event.malloc (items.length * sizeofPtr)], .error e⟩ ∧
    engineCalls (tadbit_R_call nInit items max_tad_size n_threads verbose).events = [] ∧
    resultAllocs (tadbit_R_call nInit items max_tad_size n_threads verbose).events = [] ∧
    ∀ later : List SEXP, later.take (i + 1) = items.take (i + 1) →
      tadbit_R_call nInit later max_tad_size n_threads verbose =
        ⟨[Event.malloc (later.length * sizeofPtr)], .error e⟩ := by
  have key : ∀ later : List SEXP, later.take (i + 1) = items.take (i + 1) →
      validate nInit later = .error e := by
    intro later hl
    have hget : ∀ j, j ≤ i → later[j]? = items[j]? :=
      fun j hj => getElem?_of_take_eq items later i j hj hl
    have hhead : later.head? = items.head? := by
      have h0 := hget 0 (Nat.zero_le i)
      simpa [List.head?_eq_getElem?] using h0
    have hside : ∀ j, sideFixed later j = sideFixed items j := by
      intro j
      simp [sideFixed, hhead]
    refine validate_first_violation nInit later i x e ?_ ?_ ?_
    · rw [hget i (Nat.le_refl i)]; exact hi
    · intro j y hj hy
      rw [hside j]
      exact hlow j y hj (by rw [← hget j (Nat.le_of_lt hj)]; exact hy)
    · rw [hside i]; exact hv
  have hv0 := key items rfl
  refine ⟨?_, ?_, ?_, ?_⟩
  · simp [tadbit_R_call, hv0]
  · simp [tadbit_R_call, hv0, engineCalls]
  · simp [tadbit_R_call, hv0, resultAllocs]
  · intro later hl
    simp [tadbit_R_call, key later hl]

/-- Witness of C4: a 3 by 3 matrix, then a plain vector (no `dim`), then an
element that is not coercible; the vector, index 1, is the lowest-index
violating element. -/
theorem first_violation_aborts_witness :
    tadbit_R_call 0 [constMatrix 3 .na, ⟨some [.na], true, none⟩, ⟨none, false, none⟩]
        .na 1 0 =
      ⟨[Event.malloc
          ([constMatrix 3 .na, ⟨some [.na], true, none⟩, ⟨none, false, none⟩].length
            * sizeofPtr)], .error .notMatrix⟩ ∧
    engineCalls (tadbit_R_call 0
      [constMatrix 3 .na, ⟨some [.na], true, none⟩, ⟨none, false, none⟩] .na 1 0).events
      = [] ∧
    resultAllocs (tadbit_R_call 0
      [constMatrix 3 .na, ⟨some [.na], true, none⟩, ⟨none, false, none⟩] .na 1 0).events
      = [] ∧
    ∀ later : List SEXP, later.take (1 + 1) =
        [constMatrix 3 .na, ⟨some [.na], true, none⟩, ⟨none, false, none⟩].take (1 + 1) →
      tadbit_R_call 0 later .na 1 0 =
        ⟨[Event.malloc (later.length * sizeofPtr)], .error .notMatrix⟩ :=
  first_violation_aborts 0
    [constMatrix 3 .na, ⟨some [.na], true, none⟩, ⟨none, false, none⟩] 1
    ⟨some [.na], true, none⟩ .notMatrix .na 1 0 (by decide)
    (fun j y hj hy => by
      have hj0 : j = 0 := by omega
      subst hj0
      simp only [List.getElem?_cons_zero, Option.some.injEq] at hy
      subst hy
      decide)
    (by decide)

/-- C8: a batch holding an element that is not numeric-coercible is rejected;
on such an element the loop body stops in the coercion step, before the
matrix and squareness tests, whatever its shape; and when the elements before
it pass, the error of the call is the coercion error. -/
theorem noncoercible_item_rejected (nInit : Int) (items : List SEXP) (x : SEXP)
    (max_tad_size : RDouble) (n_threads verbose : Int)
    (hmem : x ∈ items) (hx : x.real = none) :
    (∃ e, validate nInit items = .error e ∧
      tadbit_R_call nInit items max_tad_size n_threads verbose =
        ⟨[Event.malloc (items.length * sizeofPtr)], .error e⟩) ∧
    (∀ st, loopBody st x = .error .coerce) ∧
    (∀ pre post st, items = pre ++ x :: post → validate nInit pre = .ok st →
      validate nInit items = .error .coerce) := by
  refine ⟨?_, fun st => loopBody_noncoercible st x hx, ?_⟩
  · obtain ⟨pre, post, rfl⟩ := List.append_of_mem hmem
    have hv : ∃ e, validate nInit (pre ++ x :: post) = .error e := by
      unfold validate
      rw [loop_append]
      cases loop (initState nInit) pre with
      | error e => exact ⟨e, rfl⟩
      | ok st => exact ⟨.coerce, by simp [loop, loopBody_noncoercible st x hx]⟩
    obtain ⟨e, he⟩ := hv
    exact ⟨e, he, by simp [tadbit_R_call, he]⟩
  · intro pre post st hitems hpre
    subst hitems
    unfold validate at hpre ⊢
    rw [loop_append, hpre]
    simp [loop, loopBody_noncoercible st x hx]

/-- Witness of C8: a 2 by 2 matrix followed by a non-coercible element that
also carries a non-square `dim` attribute. -/
theorem noncoercible_item_rejected_witness :
    (∃ e, validate 0 [constMatrix 2 .na, ⟨none, true, some [2, 3]⟩] = .error e ∧
      tadbit_R_call 0 [constMatrix 2 .na, ⟨none, true, some [2, 3]⟩] .na 1 0 =
        ⟨[Event.malloc ([constMatrix 2 .na, ⟨none, true, some [2, 3]⟩].length * sizeofPtr)],
          .error e⟩) ∧
    (∀ st, loopBody st ⟨none, true, some [2, 3]⟩ = .error .coerce) ∧
    (∀ pre post st,
      [constMatrix 2 .na, ⟨none, true, some [2, 3]⟩] =
        pre ++ (⟨none, true, some [2, 3]⟩ : SEXP) :: post →
      validate 0 pre = .ok st →
      validate 0 [constMatrix 2 .na, ⟨none, true, some [2, 3]⟩] = .error .coerce) :=
  noncoercible_item_rejected 0 [constMatrix 2 .na, ⟨none, true, some [2, 3]⟩]
    ⟨none, true, some [2, 3]⟩ .na 1 0 (by simp) rfl

/-- C5: on the empty batch the loop body never runs, so `n` is never assigned:
the call goes on with the value `n` happened to hold.  With that value 7 it
requests a result vector of 49 cells, calls the engine with `n = 7` and
`m = 0`, and returns the 49-cell vector; the call is not rejected, and `n`
is not 0. -/
theorem empty_batch_uses_unassigned_side :
    (∀ nInit, validate nInit [] = .ok ⟨true, nInit, []⟩) ∧
    tadbit_R_call 7 [] .na 1 0 =
      ⟨[Event.malloc 0, Event.allocVector 49, Event.tadbit ⟨[], 7, 0, .na, 1, 0, 49⟩],
        .ok 49⟩ := by
  refine ⟨fun _ => rfl, ?_⟩
  decide

/-- C6: for one 46341 by 46341 matrix the loop accepts the batch with
`n = 46341`, the `int` product `n*n` wraps to a negative number, `allocVector`
raises an error on it, and the engine is not called at all. -/
theorem engine_not_called_on_wrapped_length :
    outcomeShape (validate 0 [constMatrix 46341 .na]) = .ok (false, 46341, 1) ∧
    wrapInt32 (46341 * 46341) = -2147479015 ∧
    (tadbit_R_call 0 [constMatrix 46341 .na] .na 1 0).result = .error .negativeLength ∧
    resultAllocs (tadbit_R_call 0 [constMatrix 46341 .na] .na 1 0).events
      = [-2147479015] ∧
    engineCalls (tadbit_R_call 0 [constMatrix 46341 .na] .na 1 0).events = [] := by
  refine ⟨?_, ?_, ?_, ?_, ?_⟩ <;> decide

/-- C7: for one 65536 by 65536 matrix the side is `n = 65536`, below `2^31`;
the `int` product `n*n` wraps to 0, so the vector requested, handed to the
engine and returned has 0 cells, not `65536 * 65536`. -/
theorem result_length_wraps :
    outcomeShape (validate 0 [constMatrix 65536 .na]) = .ok (false, 65536, 1) ∧
    (tadbit_R_call 0 [constMatrix 65536 .na] .na 1 0).result = .ok 0 ∧
    resultAllocs (tadbit_R_call 0 [constMatrix 65536 .na] .na 1 0).events = [0] ∧
    (engineCalls (tadbit_R_call 0 [constMatrix 65536 .na] .na 1 0).events).map
      (fun c => (c.n, c.m, c.return_val)) = [(65536, 1, 0)] ∧
    (65536 : Int) * 65536 = 4294967296 := by
  refine ⟨?_, ?_, ?_, ?_, ?_⟩ <;> decide

/-- C10: the empty batch passes the validation loop (no iteration, no error)
and is handed to the engine with `m = 0`, so a batch reaching the engine need
not have `m >= 1`. -/
theorem empty_batch_reaches_engine :
    (∀ nInit, ∃ st, validate nInit [] = .ok st) ∧
    engineCalls (tadbit_R_call 0 [] .na 1 0).events = [⟨[], 0, 0, .na, 1, 0, 0⟩] ∧
    (tadbit_R_call 0 [] .na 1 0).result = .ok 0 := by
  refine ⟨fun nInit => ⟨_, rfl⟩, ?_, ?_⟩ <;> decide

end Tadbit
